import Mathlib

/-!
Verification development for the Post Negotiation Ledger of a Telegram
sales bot (claim_sales_bot.py).  The Python handlers are shallowly
embedded as pure Lean functions over an explicit state record.  Python
dicts become association lists keyed by Nat (message ids, user ids,
claim numbers); monetary amounts become rationals, and where a claim
depends on rounding, binary64 (Python float) rounding is modelled
explicitly (repr53 / rounds53 below); datetimes become integer seconds.
Free-text regex extraction results (price, quantity, first-line keyword,
item name) are passed in as an already-parsed record, mirroring the
values the regexes in the source produce.
-/

namespace PokaiShop

/-- Association-list lookup keyed by Nat, mirroring Python dict.get. -/
def lookupK {α : Type} (l : List (Nat × α)) (k : Nat) : Option α :=
  match l with
  | [] => none
  | (k2, v) :: rest => if k2 = k then some v else lookupK rest k

/-- Association-list update, mirroring Python dict assignment d[k] = v. -/
def setK {α : Type} (l : List (Nat × α)) (k : Nat) (v : α) : List (Nat × α) :=
  match l with
  | [] => [(k, v)]
  | (k2, v2) :: rest => if k2 = k then (k2, v) :: rest else (k2, v2) :: setK rest k v

/-- Association-list deletion, mirroring Python del d[k]. -/
def delK {α : Type} (l : List (Nat × α)) (k : Nat) : List (Nat × α) :=
  match l with
  | [] => []
  | (k2, v2) :: rest => if k2 = k then rest else (k2, v2) :: delK rest k

/-- Python max(d.values()) with a default for the empty dict. -/
def maxVal (l : List (Nat × ℚ)) (dflt : ℚ) : ℚ :=
  match l with
  | [] => dflt
  | (_, v) :: rest => (rest.map Prod.snd).foldl max v

/-- Python max(d, key=d.get): the first key attaining the maximal value,
    in dict insertion order. -/
def argmaxKey (l : List (Nat × ℚ)) : Option (Nat × ℚ) :=
  match l with
  | [] => none
  | (k, v) :: rest =>
    match argmaxKey rest with
    | none => some (k, v)
    | some (k2, v2) => if v2 > v then some (k2, v2) else some (k, v)

theorem lookupK_setK_self {α : Type} (l : List (Nat × α)) (k : Nat) (v : α) :
    lookupK (setK l k v) k = some v := by
  induction l with
  | nil => simp [setK, lookupK]
  | cons p rest ih =>
    obtain ⟨k2, v2⟩ := p
    by_cases h : k2 = k
    · simp [setK, lookupK, h]
    · simp [setK, lookupK, h, ih]

theorem lookupK_setK_ne {α : Type} (l : List (Nat × α)) (k k2 : Nat) (v : α)
    (h : k2 ≠ k) : lookupK (setK l k v) k2 = lookupK l k2 := by
  induction l with
  | nil => simp [setK, lookupK, Ne.symm h]
  | cons p rest ih =>
    obtain ⟨k3, v3⟩ := p
    by_cases h3 : k3 = k
    · subst h3
      simp [setK, lookupK, Ne.symm h]
    · simp only [setK, if_neg h3, lookupK]
      by_cases h4 : k3 = k2
      · simp [h4]
      · simp [h4, ih]

theorem lookupK_mem {α : Type} {l : List (Nat × α)} {k : Nat} {v : α}
    (h : lookupK l k = some v) : (k, v) ∈ l := by
  induction l with
  | nil => simp [lookupK] at h
  | cons p rest ih =>
    obtain ⟨k2, v2⟩ := p
    by_cases h2 : k2 = k
    · subst h2
      simp [lookupK] at h
      simp [h]
    · simp [lookupK, h2] at h
      exact List.mem_cons_of_mem _ (ih h)

/-- One line item of a user invoice (a claim_data dict appended to
    user_claims[uid]["items"] in the source). -/
structure ClaimItem where
  text : String
  price : ℚ
  messageId : Nat
  timestamp : Nat := 0
  quantity : Nat := 1
  claimNumber : Option Nat := none
  isMultipleClaim : Bool := false
  isCounterOffer : Bool := false
  isAuction : Bool := false
  deriving DecidableEq

/-- A user_claims entry: invoice items, running total and identity
    fields. -/
structure UserAccount where
  items : List ClaimItem
  total : ℚ
  username : String
  fullName : String
  paymentStatus : String
  shippingMethod : Option String := none
  trackingNumber : Option String := none
  deriving DecidableEq

/-- The fresh account literal the source writes whenever a user is first
    seen. -/
def initAccount (uname fname : String) : UserAccount :=
  { items := [], total := 0, username := uname, fullName := fname,
    paymentStatus := "unpaid" }

/-- The reset literal: items and total cleared, username and full name
    preserved (reset_all_claims / reset_specific_user /
    reset_user_after_payment). -/
def resetAccount (a : UserAccount) : UserAccount :=
  { items := [], total := 0, username := a.username, fullName := a.fullName,
    paymentStatus := "unpaid" }

/-- Append an item to a user invoice and bump the running total, creating
    the account first when absent — the idiom repeated at every claim
    site in the source. -/
def addItem (accounts : List (Nat × UserAccount)) (uid : Nat)
    (uname fname : String) (item : ClaimItem) : List (Nat × UserAccount) :=
  let acc := match lookupK accounts uid with
    | some a => a
    | none => initAccount uname fname
  setK accounts uid
    { acc with items := acc.items ++ [item], total := acc.total + item.price }

/-- Remove the first matching invoice item and subtract its price
    (items.remove + total -= price in the source).  Callers locate the
    item in the account before calling, so the account is present. -/
def removeItem (accounts : List (Nat × UserAccount)) (uid : Nat)
    (item : ClaimItem) : List (Nat × UserAccount) :=
  match lookupK accounts uid with
  | none => accounts
  | some a =>
    setK accounts uid
      { a with items := a.items.erase item, total := a.total - item.price }

/-- Sum of the price fields of an item list. -/
def itemsTotal (items : List ClaimItem) : ℚ := (items.map ClaimItem.price).sum

/-- The invoice invariant of the data model: total equals the sum of the
    item prices. -/
def accountInvariant (a : UserAccount) : Prop := a.total = itemsTotal a.items

/-- The invariant over the whole user_claims store. -/
def invariantAll (accounts : List (Nat × UserAccount)) : Prop :=
  ∀ p ∈ accounts, accountInvariant p.2

instance : DecidablePred accountInvariant := by
  intro a
  unfold accountInvariant
  infer_instance

instance (accounts : List (Nat × UserAccount)) :
    Decidable (invariantAll accounts) := by
  unfold invariantAll
  infer_instance

theorem invariantAll_lookupK {l : List (Nat × UserAccount)} {k : Nat}
    {a : UserAccount} (hinv : invariantAll l) (h : lookupK l k = some a) :
    accountInvariant a :=
  hinv (k, a) (lookupK_mem h)

theorem invariantAll_setK {l : List (Nat × UserAccount)} {k : Nat}
    {a : UserAccount} (hinv : invariantAll l) (ha : accountInvariant a) :
    invariantAll (setK l k a) := by
  induction l with
  | nil =>
    intro p hp
    simp [setK] at hp
    simpa [hp]
  | cons q rest ih =>
    obtain ⟨k2, v2⟩ := q
    have hrest : invariantAll rest := fun p hp => hinv p (List.mem_cons_of_mem _ hp)
    by_cases h2 : k2 = k
    · intro p hp
      simp [setK, h2] at hp
      rcases hp with hp | hp
      · simpa [hp]
      · exact hinv p (List.mem_cons_of_mem _ hp)
    · intro p hp
      simp only [setK, if_neg h2] at hp
      rcases List.mem_cons.mp hp with hp | hp
      · exact hinv p (by simp [hp])
      · exact ih hrest p hp

theorem itemsTotal_append (l1 l2 : List ClaimItem) :
    itemsTotal (l1 ++ l2) = itemsTotal l1 + itemsTotal l2 := by
  simp [itemsTotal]

theorem itemsTotal_erase {l : List ClaimItem} {a : ClaimItem} (h : a ∈ l) :
    itemsTotal (l.erase a) = itemsTotal l - a.price := by
  induction l with
  | nil => simp at h
  | cons b rest ih =>
    by_cases hb : b = a
    · subst hb
      simp [List.erase_cons_head, itemsTotal]
    · have hmem : a ∈ rest := by
        rcases List.mem_cons.mp h with h1 | h1
        · exact absurd h1.symm hb
        · exact h1
      rw [List.erase_cons_tail (by simpa using hb)]
      show itemsTotal (b :: rest.erase a) = itemsTotal (b :: rest) - a.price
      simp only [itemsTotal, List.map_cons, List.sum_cons] at *
      rw [ih hmem]
      ring

theorem invariantAll_addItem {l : List (Nat × UserAccount)} (uid : Nat)
    (uname fname : String) (item : ClaimItem) (hinv : invariantAll l) :
    invariantAll (addItem l uid uname fname item) := by
  unfold addItem
  cases hl : lookupK l uid with
  | none =>
    apply invariantAll_setK hinv
    simp [hl, accountInvariant, initAccount, itemsTotal]
  | some a =>
    have ha := invariantAll_lookupK hinv hl
    apply invariantAll_setK hinv
    simp only [hl]
    unfold accountInvariant at *
    simp [itemsTotal_append, ha, itemsTotal]

theorem invariantAll_removeItem {l : List (Nat × UserAccount)} (uid : Nat)
    (item : ClaimItem) (hinv : invariantAll l)
    (hmem : ∀ a, lookupK l uid = some a → item ∈ a.items) :
    invariantAll (removeItem l uid item) := by
  unfold removeItem
  cases hl : lookupK l uid with
  | none => exact hinv
  | some a =>
    have ha := invariantAll_lookupK hinv hl
    apply invariantAll_setK hinv
    unfold accountInvariant at *
    simp only
    rw [itemsTotal_erase (hmem a hl), ha]

/-- A claimed_posts entry.  The source stores heterogeneous dicts; the
    three optional fields mirror the keys user_id, quantity and
    counter_offer_price, each present or absent. -/
structure ClaimedEntry where
  userId : Option Nat := none
  quantity : Option Int := none
  counterOfferPrice : Option ℚ := none
  deriving DecidableEq

/-- An offer_posts entry: offers and counter_offers dicts keyed by user. -/
structure OfferData where
  offers : List (Nat × ℚ)
  counterOffers : List (Nat × ℚ)
  deriving DecidableEq

/-- A multiple_claims entry: per-claim-number ownership, waitlists,
    offers, counter offers and accepted offers, plus the post quantity. -/
structure MultiData where
  claims : List (Nat × Nat)
  waitlist : List (Nat × List Nat)
  offers : List (Nat × List (Nat × ℚ))
  counterOffers : List (Nat × List (Nat × ℚ))
  acceptedOffers : List (Nat × Nat)
  totalQuantity : Nat
  deriving DecidableEq

/-- An auction_posts entry.  Times are integer seconds; confirmed is
    None / True / False exactly as in the source. -/
structure AuctionData where
  bids : List (Nat × ℚ)
  endTime : Int
  displayEndTime : Int
  extended : Bool
  active : Bool
  antiSnipe : Bool
  chatId : Nat
  confirmed : Option Bool := none
  deriving DecidableEq

/-- The process-wide shared dictionaries of the bot. -/
structure BotState where
  userClaims : List (Nat × UserAccount)
  claimedPosts : List (Nat × ClaimedEntry)
  waitlists : List (Nat × List Nat)
  auctionPosts : List (Nat × AuctionData)
  offerPosts : List (Nat × OfferData)
  multipleClaims : List (Nat × MultiData)
  deriving DecidableEq

/-- Regex extraction results from the text of the post being replied to:
    whether the first line contains the word multiple, the qty/quantity
    match, the first dollar-price match, and the extracted item name. -/
structure PostText where
  firstLineMultiple : Bool
  qty : Option Nat
  price : Option ℚ
  itemName : String
  deriving DecidableEq

/-- Externally visible effects of one handler run: users the handler
    attempted to notify, the net sold-quantity change pushed to the
    ledger, and price writes pushed to the ledger. -/
structure Effects where
  notified : List Nat := []
  soldDelta : Int := 0
  priceWrites : List ℚ := []
  deriving DecidableEq

/-- Outcome of a claim handler run. -/
inductive ClaimOutcome
  | delegatedMulti
  | auctionActive
  | waitlisted
  | badRange
  | noPrice
  | silentNoPrice
  | claimed (price : ℚ)
  deriving DecidableEq

/-- Outcome of an offer handler run. -/
inductive OfferOutcome
  | delegatedMulti
  | fullyClaimed
  | notHigherOwn (prev : ℚ)
  | sameOwnOffer (prev : ℚ)
  | samePrice
  | alreadyTaken
  | badRange
  | noPrice
  | recorded
  deriving DecidableEq

/-- Outcome of a bid on an auction post. -/
inductive BidOutcome
  | ended
  | tooLow (highest : ℚ)
  | accepted
  deriving DecidableEq

/-- handle_auction_bid: refuse when inactive, refuse a bid not strictly
    above the current highest, otherwise record it and apply the
    anti-snipe extension rules on the effective end time. -/
def handle_auction_bid (a : AuctionData) (userId : Nat) (bid : ℚ)
    (now : Int) : AuctionData × BidOutcome :=
  if a.active = false then (a, .ended)
  else
    let currentHighest := maxVal a.bids 0
    if bid ≤ currentHighest then (a, .tooLow currentHighest)
    else
      let a1 := { a with bids := setK a.bids userId bid }
      if a.antiSnipe then
        let timeRemaining := a.endTime - now
        if timeRemaining ≤ 60 ∧ a.extended = false then
          ({ a1 with endTime := a.endTime + 300,
                     displayEndTime := a.displayEndTime + 300,
                     extended := true }, .accepted)
        else if a.extended = true ∧ timeRemaining ≤ 60 then
          ({ a1 with endTime := a.endTime + 60,
                     displayEndTime := a.displayEndTime + 60 }, .accepted)
        else (a1, .accepted)
      else (a1, .accepted)

/-- Result of setting up a new auction post. -/
inductive SetupResult
  | created (a : AuctionData)
  | rejectedPast (displayEnd : Int)
  deriving DecidableEq

/-- setup_auction_post: the parsed end expression (if any) gives the
    display end time; the effective end time is display plus 60 seconds;
    with no parse both default to 24 hours from now; creation is refused
    when the effective end time is before now, registering nothing. -/
def setup_auction_post (parsedEnd : Option Int) (antiSnipe : Bool)
    (chatId : Nat) (now : Int) : SetupResult :=
  let times := match parsedEnd with
    | some t => (t + 60, t)
    | none => (now + 86400 + 60, now + 86400)
  if times.1 < now then .rejectedPast times.2
  else .created
    { bids := [], endTime := times.1, displayEndTime := times.2,
      extended := false, active := true, antiSnipe := antiSnipe,
      chatId := chatId, confirmed := none }

/-- The admin resolution command of handle_auction_confirmation. -/
inductive ConfirmCmd
  | yoursCmd
  | rpNotMet
  deriving DecidableEq

/-- Outcome of an auction confirmation attempt. -/
inductive ConfirmOutcome
  | notAuction
  | stillActive
  | noBids
  | alreadyConfirmed
  | alreadyProcessed
  | won (userId : Nat) (amount : ℚ)
  | reserveNotMet (amount : ℚ)
  deriving DecidableEq

/-- handle_auction_confirmation on a reply to the auction post itself.
    The yours branch is guarded by a truthiness test on confirmed (it
    blocks only confirmed == True), while the rp-not-met branch is
    guarded by confirmed is not None, exactly as the source. -/
def handle_auction_confirmation (auctions : List (Nat × AuctionData))
    (accounts : List (Nat × UserAccount)) (postId : Nat) (cmd : ConfirmCmd)
    (cardName : String) (uname fname : String) (ts : Nat) :
    List (Nat × AuctionData) × List (Nat × UserAccount) × ConfirmOutcome ×
      Effects :=
  match lookupK auctions postId with
  | none => (auctions, accounts, .notAuction, {})
  | some ad =>
    if ad.active then (auctions, accounts, .stillActive, {})
    else
      match argmaxKey ad.bids with
      | none => (auctions, accounts, .noBids, {})
      | some (highestBidder, highestBid) =>
        match cmd with
        | .yoursCmd =>
          if ad.confirmed = some true then
            (auctions, accounts, .alreadyConfirmed, {})
          else
            let item : ClaimItem :=
              { text := cardName, price := highestBid, messageId := postId,
                timestamp := ts, quantity := 1, isAuction := true }
            (setK auctions postId { ad with confirmed := some true, active := false },
             addItem accounts highestBidder uname fname item,
             .won highestBidder highestBid,
             { soldDelta := 1, priceWrites := [highestBid] })
        | .rpNotMet =>
          if ad.confirmed ≠ none then
            (auctions, accounts, .alreadyProcessed, {})
          else
            (setK auctions postId { ad with confirmed := some false, active := false },
             accounts, .reserveNotMet highestBid,
             { priceWrites := [highestBid] })

/-- The waitlist insertion shared verbatim by the three fully-claimed
    branches of handle_claim: append the user unless already present. -/
def waitlistAdd (w : List (Nat × List Nat)) (postId uid : Nat) :
    List (Nat × List Nat) :=
  let wl := (lookupK w postId).getD []
  if uid ∈ wl then w else setK w postId (wl ++ [uid])

/-- The success path of handle_claim: record the invoice item, mark the
    post claimed (decrementing remaining quantity for quantity posts,
    writing a plain user_id record otherwise), push a sold update of one.
    Every path reaching the decrement has an entry with a quantity key,
    so the getD default is never the value used. -/
def claimProceed (st : BotState) (uid : Nat) (uname fname : String)
    (postId : Nat) (pt : PostText) (ts : Nat) (price : ℚ)
    (isCounter : Bool) (notifiedUsers : List Nat) :
    BotState × ClaimOutcome × Effects :=
  let quantity := pt.qty.getD 1
  let item : ClaimItem :=
    { text := pt.itemName, price := price, messageId := postId,
      timestamp := ts, quantity := 1, isCounterOffer := isCounter }
  let st2 := { st with userClaims := addItem st.userClaims uid uname fname item }
  let st3 :=
    if quantity > 1 then
      match lookupK st2.claimedPosts postId with
      | some cd =>
        { st2 with claimedPosts :=
            (setK st2.claimedPosts postId
              { cd with quantity := some (cd.quantity.getD 0 - 1) }) }
      | none =>
        { st2 with claimedPosts :=
            (setK st2.claimedPosts postId
              { userId := some uid, quantity := some ((quantity : Int) - 1) }) }
    else
      { st2 with claimedPosts :=
          (setK st2.claimedPosts postId { userId := some uid }) }
  (st3, .claimed price, { notified := notifiedUsers, soldDelta := 1 })

/-- The ordinary claim rules of handle_claim after the offer book has
    been handled: sell remaining quantity (at the counter-offer price
    when one was accepted), or waitlist the requester when the post is
    fully claimed. -/
def claimCore (st1 : BotState) (uid : Nat) (uname fname : String)
    (postId : Nat) (pt : PostText) (ts : Nat) (notifiedUsers : List Nat) :
    BotState × ClaimOutcome × Effects :=
  match lookupK st1.claimedPosts postId with
  | some cd =>
    match cd.counterOfferPrice with
    | some cop =>
      match cd.quantity with
      | some q =>
        if q > 0 then claimProceed st1 uid uname fname postId pt ts cop true notifiedUsers
        else
          ({ st1 with waitlists := waitlistAdd st1.waitlists postId uid },
           .waitlisted, { notified := notifiedUsers })
      | none =>
        ({ st1 with waitlists := waitlistAdd st1.waitlists postId uid },
         .waitlisted, { notified := notifiedUsers })
    | none =>
      match cd.quantity with
      | some q =>
        if q > 0 then
          match pt.price with
          | some pr => claimProceed st1 uid uname fname postId pt ts pr false notifiedUsers
          | none => (st1, .noPrice, { notified := notifiedUsers })
        else
          ({ st1 with waitlists := waitlistAdd st1.waitlists postId uid },
           .waitlisted, { notified := notifiedUsers })
      | none =>
        ({ st1 with waitlists := waitlistAdd st1.waitlists postId uid },
         .waitlisted, { notified := notifiedUsers })
  | none =>
    match pt.price with
    | some pr => claimProceed st1 uid uname fname postId pt ts pr false notifiedUsers
    | none => (st1, .silentNoPrice, { notified := notifiedUsers })

/-- The pending-offer step of handle_claim: when the post has offers,
    reset its offer book to empty and collect the offer users to notify
    that the item was claimed at the original price. -/
def clearOffers (st : BotState) (postId : Nat) : BotState × List Nat :=
  match lookupK st.offerPosts postId with
  | some od =>
    if od.offers.isEmpty then (st, [])
    else
      ({ st with offerPosts :=
          (setK st.offerPosts postId { offers := [], counterOffers := [] }) },
       od.offers.map Prod.fst)
  | none => (st, [])

/-- handle_claim for a reply to a non-multi post: delegate multi posts,
    refuse active auctions, clear and notify any pending offer book,
    then apply the ordinary claim rules (claimCore). -/
def handle_claim (st : BotState) (uid : Nat) (uname fname : String)
    (postId : Nat) (pt : PostText) (ts : Nat) :
    BotState × ClaimOutcome × Effects :=
  if pt.firstLineMultiple then (st, .delegatedMulti, {}) else
  if (match lookupK st.auctionPosts postId with
      | some ad => ad.active
      | none => false) then (st, .auctionActive, {}) else
  claimCore (clearOffers st postId).1 uid uname fname postId pt ts
    (clearOffers st postId).2

/-- The multiple_claims record created on first use of a multi post. -/
def initMultiData (totalQuantity : Nat) : MultiData :=
  { claims := [], waitlist := [], offers := [], counterOffers := [],
    acceptedOffers := [], totalQuantity := totalQuantity }

/-- handle_multiple_claim: validate the claim number against the post
    quantity (default 10), waitlist the requester when the number has an
    accepted offer or is already taken (the two source branches are
    verbatim identical), otherwise record ownership and the invoice
    item. -/
def handle_multiple_claim (st : BotState) (uid : Nat) (uname fname : String)
    (postId : Nat) (pt : PostText) (n : Nat) (ts : Nat) :
    BotState × ClaimOutcome × Effects :=
  match pt.price with
  | none => (st, .noPrice, {})
  | some price =>
    let totalQuantity := pt.qty.getD 10
    if n < 1 ∨ totalQuantity < n then (st, .badRange, {})
    else
      let md := (lookupK st.multipleClaims postId).getD (initMultiData totalQuantity)
      let st1 := { st with multipleClaims := setK st.multipleClaims postId md }
      if (lookupK md.acceptedOffers n).isSome ∨ (lookupK md.claims n).isSome then
        let wl := (lookupK md.waitlist n).getD []
        if uid ∈ wl then (st1, .waitlisted, {})
        else
          let md1 := { md with waitlist := setK md.waitlist n (wl ++ [uid]) }
          ({ st1 with multipleClaims := setK st1.multipleClaims postId md1 },
           .waitlisted, {})
      else
        let md1 := { md with claims := setK md.claims n uid }
        let item : ClaimItem :=
          { text := pt.itemName ++ " (#" ++ toString n ++ ")", price := price,
            messageId := postId, timestamp := ts, quantity := 1,
            claimNumber := some n, isMultipleClaim := true }
        ({ st1 with
            multipleClaims := setK st1.multipleClaims postId md1,
            userClaims := addItem st1.userClaims uid uname fname item },
         .claimed price, { soldDelta := 1 })

/-- handle_regular_unclaim: remove the invoice item; when the post has a
    waitlist, pop its head and transfer the item to that user at the
    same price with no sold-quantity change, recording the new owner;
    with no waitlist push a sold update of minus one and either
    increment remaining quantity or delete the single-item claim
    record. -/
def handle_regular_unclaim (st : BotState) (uid : Nat) (item : ClaimItem)
    (ts : Nat) (nextUname nextFname : String) :
    BotState × Effects × Option Nat :=
  let mid := item.messageId
  let st1 := { st with userClaims := removeItem st.userClaims uid item }
  match (lookupK st1.waitlists mid).getD [] with
  | next :: rest =>
    let st2 := { st1 with waitlists := setK st1.waitlists mid rest }
    let promoted : ClaimItem :=
      { text := item.text, price := item.price, messageId := mid,
        timestamp := ts, quantity := 1 }
    let st3 := { st2 with
      userClaims := addItem st2.userClaims next nextUname nextFname promoted }
    let st4 := match lookupK st3.claimedPosts mid with
      | some cd =>
        { st3 with claimedPosts :=
            (setK st3.claimedPosts mid { cd with userId := some next }) }
      | none => st3
    (st4, { soldDelta := 0 }, some next)
  | [] =>
    let st2 := match lookupK st1.claimedPosts mid with
      | some cd =>
        match cd.quantity with
        | some q =>
          { st1 with claimedPosts :=
              (setK st1.claimedPosts mid { cd with quantity := some (q + 1) }) }
        | none => { st1 with claimedPosts := delK st1.claimedPosts mid }
      | none => st1
    (st2, { soldDelta := -1 }, none)

/-- handle_multiple_unclaim: remove the invoice item; when the user owns
    the claim number, release it and either transfer it to the head of
    the per-number waitlist at the same price (no sold change) or push a
    sold update of minus one. -/
def handle_multiple_unclaim (st : BotState) (uid : Nat) (item : ClaimItem)
    (postId : Nat) (ts : Nat) (nextUname nextFname : String) :
    BotState × Effects × Option Nat :=
  let n := item.claimNumber.getD 0
  let st1 := { st with userClaims := removeItem st.userClaims uid item }
  match lookupK st1.multipleClaims postId with
  | none => (st1, {}, none)
  | some md =>
    if lookupK md.claims n = some uid then
      let md1 := { md with claims := delK md.claims n }
      match (lookupK md1.waitlist n).getD [] with
      | next :: rest =>
        let promoted : ClaimItem :=
          { text := item.text, price := item.price, messageId := postId,
            timestamp := ts, quantity := 1, claimNumber := some n,
            isMultipleClaim := true }
        let md2 := { md1 with waitlist := setK md1.waitlist n rest,
                              claims := setK md1.claims n next }
        ({ st1 with
            multipleClaims := setK st1.multipleClaims postId md2,
            userClaims := addItem st1.userClaims next nextUname nextFname promoted },
         { soldDelta := 0 }, some next)
      | [] =>
        ({ st1 with multipleClaims := setK st1.multipleClaims postId md1 },
         { soldDelta := -1 }, none)
    else (st1, {}, none)

/-- The recording tail of handle_offer: notify the previous highest
    bidder when outbid (the single-post handler does not exclude the
    user outbidding themself), then overwrite the offer and drop any
    counter offer held by this user. -/
def offerRecord (st : BotState) (uid : Nat) (postId : Nat) (od : OfferData)
    (amount : ℚ) : BotState × OfferOutcome × Effects :=
  let notifiedUsers : List Nat :=
    match argmaxKey od.offers with
    | some (hu, hv) => if hv < amount then [hu] else []
    | none => []
  let od1 : OfferData :=
    { offers := setK od.offers uid amount,
      counterOffers := delK od.counterOffers uid }
  ({ st with offerPosts := setK st.offerPosts postId od1 },
   .recorded, { notified := notifiedUsers })

/-- The fully-claimed guard of handle_offer: blocked when the claim
    record has no quantity key, or its remaining quantity is at most
    zero. -/
def offerBlocked (st : BotState) (postId : Nat) : Bool :=
  match lookupK st.claimedPosts postId with
  | none => false
  | some cd =>
    match cd.quantity with
    | some q => decide (q ≤ 0)
    | none => true

/-- handle_offer for a non-multi post: refuse when the post is fully
    claimed; refuse a repeat offer not strictly above the same user
    previous offer; otherwise record. -/
def handle_offer (st : BotState) (uid : Nat) (postId : Nat) (pt : PostText)
    (amount : ℚ) : BotState × OfferOutcome × Effects :=
  if pt.firstLineMultiple then (st, .delegatedMulti, {}) else
  if offerBlocked st postId then (st, .fullyClaimed, {}) else
  let od := (lookupK st.offerPosts postId).getD { offers := [], counterOffers := [] }
  let st1 := { st with offerPosts := setK st.offerPosts postId od }
  match lookupK od.offers uid with
  | some prev =>
    if amount ≤ prev then (st1, .notHigherOwn prev, {})
    else offerRecord st1 uid postId od amount
  | none => offerRecord st1 uid postId od amount

/-- The recording tail of handle_multiple_offer: notify the previous
    highest bidder for this claim number when outbid by someone else,
    then overwrite this user offer. -/
def multiOfferRecord (st : BotState) (uid : Nat) (postId : Nat) (n : Nat)
    (md : MultiData) (offersN : List (Nat × ℚ)) (amount : ℚ) :
    BotState × OfferOutcome × Effects :=
  let notifiedUsers : List Nat :=
    match argmaxKey offersN with
    | some (hu, hv) => if hv < amount ∧ uid ≠ hu then [hu] else []
    | none => []
  let md1 := { md with offers := setK md.offers n (setK offersN uid amount) }
  ({ st with multipleClaims := setK st.multipleClaims postId md1 },
   .recorded, { notified := notifiedUsers })

/-- handle_multiple_offer: validate price, claim-number range and that
    the amount differs from the original price; refuse offers on taken
    numbers; refuse a repeat offer only when it equals the same user
    previous offer for that number; otherwise record.  The record
    created on first use carries the model default empty fields for the
    keys the source creates on demand. -/
def handle_multiple_offer (st : BotState) (uid : Nat) (postId : Nat)
    (pt : PostText) (n : Nat) (amount : ℚ) :
    BotState × OfferOutcome × Effects :=
  match pt.price with
  | none => (st, .noPrice, {})
  | some originalPrice =>
    let totalQuantity := pt.qty.getD 10
    if n < 1 ∨ totalQuantity < n then (st, .badRange, {})
    else if amount = originalPrice then (st, .samePrice, {})
    else
      let md := (lookupK st.multipleClaims postId).getD (initMultiData totalQuantity)
      let offersN := (lookupK md.offers n).getD []
      let md1 := { md with offers := setK md.offers n offersN }
      let st1 := { st with multipleClaims := setK st.multipleClaims postId md1 }
      if (lookupK md.claims n).isSome then (st1, .alreadyTaken, {})
      else
        match lookupK offersN uid with
        | some prev =>
          if amount = prev then (st1, .sameOwnOffer prev, {})
          else multiOfferRecord st1 uid postId n md1 offersN amount
        | none => multiOfferRecord st1 uid postId n md1 offersN amount

/-- The scan of offer_posts for the first post holding a counter offer
    for this user (handle_take). -/
def findCounterOffer : List (Nat × OfferData) → Nat → Option (Nat × ℚ)
  | [], _ => none
  | (pid, od) :: rest, uid =>
    match lookupK od.counterOffers uid with
    | some amt => some (pid, amt)
    | none => findCounterOffer rest uid

/-- handle_take for a single-post counter offer: add the item at the
    counter price; for multi-quantity posts store the counter price for
    the remaining quantity, for single items mark the post claimed and
    clear (after notifying) its waitlist; push sold plus one and the new
    price. -/
def handle_take (st : BotState) (uid : Nat) (uname fname : String)
    (itemName : String) (origQty : Nat) (ts : Nat) :
    BotState × Option (Nat × ℚ) × Effects :=
  match findCounterOffer st.offerPosts uid with
  | none => (st, none, {})
  | some (postId, amt) =>
    let item : ClaimItem :=
      { text := itemName, price := amt, messageId := postId, timestamp := ts,
        quantity := 1, isCounterOffer := true }
    let st1 := { st with userClaims := addItem st.userClaims uid uname fname item }
    if origQty > 1 then
      let st2 := match lookupK st1.claimedPosts postId with
        | some cd =>
          match cd.quantity with
          | some q =>
            { st1 with claimedPosts :=
                (setK st1.claimedPosts postId { cd with quantity := some (q - 1) }) }
          | none =>
            { st1 with claimedPosts :=
                (setK st1.claimedPosts postId
                  { quantity := some ((origQty : Int) - 1),
                    counterOfferPrice := some amt }) }
        | none =>
          { st1 with claimedPosts :=
              (setK st1.claimedPosts postId
                { quantity := some ((origQty : Int) - 1),
                  counterOfferPrice := some amt }) }
      (st2, some (postId, amt), { soldDelta := 1, priceWrites := [amt] })
    else
      let wlUsers := (lookupK st1.waitlists postId).getD []
      let st2 := { st1 with
          claimedPosts := setK st1.claimedPosts postId { userId := some uid },
          waitlists := delK st1.waitlists postId }
      (st2, some (postId, amt),
       { notified := wlUsers, soldDelta := 1, priceWrites := [amt] })

/-- handle_multiple_take: accept a counter offer on one claim number of
    a multi post, mark it accepted and clear its offer and counter-offer
    books; push sold plus one and the new price. -/
def handle_multiple_take (st : BotState) (uid : Nat) (uname fname : String)
    (postId : Nat) (n : Nat) (amt : ℚ) (itemName : String) (ts : Nat) :
    BotState × Effects :=
  match lookupK st.multipleClaims postId with
  | none => (st, {})
  | some md =>
    let item : ClaimItem :=
      { text := itemName ++ " (#" ++ toString n ++ ")", price := amt,
        messageId := postId, timestamp := ts, quantity := 1,
        claimNumber := some n, isMultipleClaim := true, isCounterOffer := true }
    let md1 := { md with acceptedOffers := setK md.acceptedOffers n uid,
                         offers := delK md.offers n,
                         counterOffers := delK md.counterOffers n }
    ({ st with
        userClaims := addItem st.userClaims uid uname fname item,
        multipleClaims := setK st.multipleClaims postId md1 },
     { soldDelta := 1, priceWrites := [amt] })

/-- Remove a user from every waitlist, deleting newly emptied lists
    (reset_specific_user cleanup loop). -/
def removeUserFromWaitlists : List (Nat × List Nat) → Nat → List (Nat × List Nat)
  | [], _ => []
  | (k, wl) :: rest, uid =>
    if uid ∈ wl then
      let wl2 := wl.erase uid
      if wl2 = [] then removeUserFromWaitlists rest uid
      else (k, wl2) :: removeUserFromWaitlists rest uid
    else (k, wl) :: removeUserFromWaitlists rest uid

/-- The same cleanup over the nested multi-post waitlists. -/
def removeUserFromMultiWaitlists (l : List (Nat × MultiData)) (uid : Nat) :
    List (Nat × MultiData) :=
  l.map (fun p =>
    (p.1, { p.2 with waitlist := removeUserFromWaitlists p.2.waitlist uid }))

/-- The confirmed branch of reset_specific_user: reset the account
    preserving identity fields and drop the user from all waitlists. -/
def reset_specific_user (st : BotState) (target : Nat) : BotState :=
  match lookupK st.userClaims target with
  | none => st
  | some a =>
    { st with
        userClaims := setK st.userClaims target (resetAccount a),
        waitlists := removeUserFromWaitlists st.waitlists target,
        multipleClaims := removeUserFromMultiWaitlists st.multipleClaims target }

/-- The method names the ThreadSafeDict class defines (source lines
    123-155).  There is no clear method among them. -/
def threadSafeDictMethods : List String :=
  ["__getitem__", "__setitem__", "__delitem__", "get", "keys", "items",
   "__contains__"]

/-- Pre-reset statistics reported by reset_all_claims. -/
structure ResetStats where
  usersReset : Nat
  totalItems : Nat
  totalValue : ℚ
  deriving DecidableEq

/-- Result of the confirmed reset-all: the state the handler leaves
    behind, whether an uncaught exception escaped, and the statistics
    reply sent to the admin (none when the handler raised first). -/
structure ResetOutcome where
  state : BotState
  raised : Bool
  reported : Option ResetStats
  deriving DecidableEq

/-- The confirmed branch of reset_all_claims: compute statistics, reset
    every account that has items, then call clear() on the five tracking
    ThreadSafeDicts.  ThreadSafeDict defines no clear method, so the
    attribute lookup raises before any tracking dict is cleared and
    before the statistics reply is sent. -/
def reset_all_claims_confirmed (st : BotState) : ResetOutcome :=
  let withClaims := st.userClaims.filter (fun p => !p.2.items.isEmpty)
  let stats : ResetStats :=
    { usersReset := withClaims.length,
      totalItems := (withClaims.map (fun p => p.2.items.length)).sum,
      totalValue := (withClaims.map (fun p => p.2.total)).sum }
  let accounts1 := st.userClaims.map
    (fun p => if p.2.items.isEmpty then p else (p.1, resetAccount p.2))
  let st1 := { st with userClaims := accounts1 }
  let stCleared := { st1 with claimedPosts := [], waitlists := [],
                              multipleClaims := [], auctionPosts := [],
                              offerPosts := [] }
  if threadSafeDictMethods.contains "clear" then
    { state := stCleared, raised := false, reported := some stats }
  else
    { state := st1, raised := true, reported := none }

theorem tsd_no_clear : threadSafeDictMethods.contains "clear" = false := by
  decide

/-- Claim C6 (refuted by the code): the confirmed reset-all never
    completes.  ThreadSafeDict defines no clear method, so the clear()
    calls raise: none of the claimed-post, waitlist, multi-claim,
    auction or offer dictionaries is cleared, and the pre-reset
    statistics are never reported. -/
theorem c6_reset_all_raises (st : BotState) :
    (reset_all_claims_confirmed st).raised = true ∧
    (reset_all_claims_confirmed st).reported = none ∧
    (reset_all_claims_confirmed st).state.claimedPosts = st.claimedPosts ∧
    (reset_all_claims_confirmed st).state.waitlists = st.waitlists ∧
    (reset_all_claims_confirmed st).state.multipleClaims = st.multipleClaims ∧
    (reset_all_claims_confirmed st).state.auctionPosts = st.auctionPosts ∧
    (reset_all_claims_confirmed st).state.offerPosts = st.offerPosts := by
  simp [reset_all_claims_confirmed, threadSafeDictMethods]

/-- Claim C7: for an accepted bid (active auction, amount strictly above
    the current highest): with anti-snipe on and at most one minute to
    the effective end, the first extension adds five minutes and marks
    the auction extended; while extended each further such bid adds one
    minute; without anti-snipe, or outside the trailing one-minute
    window, the end time never changes. -/
theorem c7_anti_snipe (a : AuctionData) (u : Nat) (b : ℚ) (now : Int)
    (hact : a.active = true) (hhigh : maxVal a.bids 0 < b) :
    (a.antiSnipe = true → a.extended = false → a.endTime - now ≤ 60 →
       (handle_auction_bid a u b now).1.endTime = a.endTime + 300 ∧
       (handle_auction_bid a u b now).1.extended = true) ∧
    (a.antiSnipe = true → a.extended = true → a.endTime - now ≤ 60 →
       (handle_auction_bid a u b now).1.endTime = a.endTime + 60 ∧
       (handle_auction_bid a u b now).1.extended = true) ∧
    (a.antiSnipe = false →
       (handle_auction_bid a u b now).1.endTime = a.endTime ∧
       (handle_auction_bid a u b now).1.extended = a.extended) ∧
    (60 < a.endTime - now →
       (handle_auction_bid a u b now).1.endTime = a.endTime ∧
       (handle_auction_bid a u b now).1.extended = a.extended) := by
  have hb : ¬ b ≤ maxVal a.bids 0 := not_le.mpr hhigh
  refine ⟨?_, ?_, ?_, ?_⟩
  · intro hsnipe hext hwin
    simp [handle_auction_bid, hact, hb, hsnipe, hext, hwin]
  · intro hsnipe hext hwin
    simp [handle_auction_bid, hact, hb, hsnipe, hext, hwin]
  · intro hsnipe
    simp [handle_auction_bid, hact, hb, hsnipe]
  · intro hwin
    have hw : ¬ a.endTime - now ≤ 60 := not_le.mpr hwin
    by_cases hsnipe : a.antiSnipe <;>
      simp [handle_auction_bid, hact, hb, hsnipe, hw]

theorem c7_anti_snipe_witness :
    (handle_auction_bid
        { bids := [], endTime := 100, displayEndTime := 100, extended := false,
          active := true, antiSnipe := true, chatId := 0, confirmed := none }
        1 5 50).1.endTime = 100 + 300 ∧
    (handle_auction_bid
        { bids := [], endTime := 100, displayEndTime := 100, extended := false,
          active := true, antiSnipe := true, chatId := 0, confirmed := none }
        1 5 50).1.extended = true :=
  (c7_anti_snipe
    { bids := [], endTime := 100, displayEndTime := 100, extended := false,
      active := true, antiSnipe := true, chatId := 0, confirmed := none }
    1 5 50 rfl (by decide)).1 rfl rfl (by decide)

/-- Claim C8 as stated is refuted: a parsed end time thirty seconds in
    the past is not rejected — the auction is created, because the
    rejection test compares the effective end time (display plus sixty
    seconds) with now. -/
theorem c8_counterexample :
    (-30 : Int) < 0 ∧
    setup_auction_post (some (-30)) false 0 0 =
      .created { bids := [], endTime := 30, displayEndTime := -30,
                 extended := false, active := true, antiSnipe := false,
                 chatId := 0, confirmed := none } := by
  exact ⟨by decide, by decide⟩

/-- Claim C8 amended: with no parsed end expression the display end
    defaults to twenty-four hours from now; in every created auction the
    effective end time equals the display end time plus sixty seconds;
    and a parsed end time is rejected (registering nothing) exactly when
    the effective end time, not the display end time, is already past. -/
theorem c8_amended (parsedEnd : Option Int) (asn : Bool) (cid : Nat)
    (now : Int) :
    (parsedEnd = none →
       setup_auction_post parsedEnd asn cid now =
         .created { bids := [], endTime := now + 86400 + 60,
                    displayEndTime := now + 86400, extended := false,
                    active := true, antiSnipe := asn, chatId := cid,
                    confirmed := none }) ∧
    (∀ a, setup_auction_post parsedEnd asn cid now = .created a →
       a.endTime = a.displayEndTime + 60) ∧
    (∀ t, parsedEnd = some t →
       (setup_auction_post parsedEnd asn cid now = .rejectedPast t ↔
          t + 60 < now)) := by
  refine ⟨?_, ?_, ?_⟩
  · intro h
    subst h
    simp only [setup_auction_post]
    rw [if_neg (by omega)]
  · intro a ha
    cases parsedEnd with
    | none =>
      simp only [setup_auction_post] at ha
      rw [if_neg (by omega)] at ha
      cases ha
      simp
    | some t =>
      simp only [setup_auction_post] at ha
      by_cases h : t + 60 < now
      · rw [if_pos h] at ha
        cases ha
      · rw [if_neg h] at ha
        cases ha
        simp
  · intro t ht
    subst ht
    simp only [setup_auction_post]
    constructor
    · intro h
      by_cases hc : t + 60 < now
      · exact hc
      · rw [if_neg hc] at h
        cases h
    · intro hc
      rw [if_pos hc]

theorem c8_amended_witness :
    setup_auction_post none false 0 0 =
      .created { bids := [], endTime := 0 + 86400 + 60,
                 displayEndTime := 0 + 86400, extended := false,
                 active := true, antiSnipe := false, chatId := 0,
                 confirmed := none } :=
  (c8_amended none false 0 0).1 rfl

/-- The auction state used by the C2 counterexample: ended, one bid of
    twenty by user five, already resolved as RP-not-met. -/
def c2RejectedAuction : AuctionData :=
  { bids := [(5, 20)], endTime := 0, displayEndTime := 0, extended := false,
    active := false, antiSnipe := false, chatId := 0, confirmed := some false }

/-- Claim C2 as stated is refuted: on an auction already resolved as
    RP-not-met, a subsequent yours confirmation is not rejected — the
    highest bidder gains the item (total twenty) and sold-quantity and
    price ledger writes are pushed. -/
theorem c2_counterexample :
    c2RejectedAuction.confirmed = some false ∧
    (handle_auction_confirmation [(1, c2RejectedAuction)] [] 1 .yoursCmd
        "Card" "u" "f" 0).2.2.1 = .won 5 20 ∧
    (handle_auction_confirmation [(1, c2RejectedAuction)] [] 1 .yoursCmd
        "Card" "u" "f" 0).2.2.2 =
      { notified := [], soldDelta := 1, priceWrites := [20] } ∧
    ((lookupK (handle_auction_confirmation [(1, c2RejectedAuction)] [] 1
        .yoursCmd "Card" "u" "f" 0).2.1 5).map UserAccount.total) = some 20 := by
  refine ⟨rfl, rfl, rfl, ?_⟩
  simp [handle_auction_confirmation, c2RejectedAuction, argmaxKey, lookupK,
        addItem, initAccount, setK]

/-- Claim C2 amended: after a Won resolution (confirmed = True) every
    further confirmation attempt of either kind is rejected with no
    account change and no ledger write; after an RP-not-met rejection
    (confirmed = False) a further RP-not-met attempt is likewise
    rejected; but a yours confirmation after an RP-not-met rejection is
    accepted, adding the item to the highest bidder and pushing
    sold-quantity and price ledger writes. -/
theorem c2_amended (auctions : List (Nat × AuctionData))
    (accounts : List (Nat × UserAccount)) (postId : Nat) (ad : AuctionData)
    (cardName uname fname : String) (ts : Nat)
    (h : lookupK auctions postId = some ad) (hact : ad.active = false) :
    (ad.confirmed = some true → ∀ cmd,
       (handle_auction_confirmation auctions accounts postId cmd cardName
          uname fname ts).1 = auctions ∧
       (handle_auction_confirmation auctions accounts postId cmd cardName
          uname fname ts).2.1 = accounts ∧
       (handle_auction_confirmation auctions accounts postId cmd cardName
          uname fname ts).2.2.2 = ({} : Effects)) ∧
    (ad.confirmed = some false →
       (handle_auction_confirmation auctions accounts postId .rpNotMet
          cardName uname fname ts).1 = auctions ∧
       (handle_auction_confirmation auctions accounts postId .rpNotMet
          cardName uname fname ts).2.1 = accounts ∧
       (handle_auction_confirmation auctions accounts postId .rpNotMet
          cardName uname fname ts).2.2.2 = ({} : Effects)) ∧
    (∀ hb amt, ad.confirmed = some false →
       argmaxKey ad.bids = some (hb, amt) →
       (handle_auction_confirmation auctions accounts postId .yoursCmd
          cardName uname fname ts).2.2.1 = .won hb amt ∧
       (handle_auction_confirmation auctions accounts postId .yoursCmd
          cardName uname fname ts).2.2.2 =
         { notified := [], soldDelta := 1, priceWrites := [amt] } ∧
       (handle_auction_confirmation auctions accounts postId .yoursCmd
          cardName uname fname ts).2.1 =
         addItem accounts hb uname fname
           { text := cardName, price := amt, messageId := postId,
             timestamp := ts, quantity := 1, isAuction := true }) := by
  refine ⟨?_, ?_, ?_⟩
  · intro hconf cmd
    cases hm : argmaxKey ad.bids with
    | none =>
      cases cmd <;> simp [handle_auction_confirmation, h, hact, hm]
    | some p =>
      obtain ⟨hb, amt⟩ := p
      cases cmd <;>
        simp [handle_auction_confirmation, h, hact, hm, hconf]
  · intro hconf
    cases hm : argmaxKey ad.bids with
    | none => simp [handle_auction_confirmation, h, hact, hm]
    | some p =>
      obtain ⟨hb, amt⟩ := p
      simp [handle_auction_confirmation, h, hact, hm, hconf]
  · intro hb amt hconf hm
    simp [handle_auction_confirmation, h, hact, hm, hconf]

theorem c2_amended_witness :
    (handle_auction_confirmation [(1, c2RejectedAuction)] [] 1 .rpNotMet
        "Card" "u" "f" 0).2.1 = ([] : List (Nat × UserAccount)) :=
  ((c2_amended [(1, c2RejectedAuction)] [] 1 c2RejectedAuction
      "Card" "u" "f" 0 rfl rfl).2.1 rfl).2.1

theorem clearOffers_userClaims (st : BotState) (postId : Nat) :
    (clearOffers st postId).1.userClaims = st.userClaims := by
  unfold clearOffers
  cases lookupK st.offerPosts postId with
  | none => rfl
  | some od => by_cases he : od.offers.isEmpty <;> simp [he]

theorem clearOffers_claimedPosts (st : BotState) (postId : Nat) :
    (clearOffers st postId).1.claimedPosts = st.claimedPosts := by
  unfold clearOffers
  cases lookupK st.offerPosts postId with
  | none => rfl
  | some od => by_cases he : od.offers.isEmpty <;> simp [he]

theorem clearOffers_waitlists (st : BotState) (postId : Nat) :
    (clearOffers st postId).1.waitlists = st.waitlists := by
  unfold clearOffers
  cases lookupK st.offerPosts postId with
  | none => rfl
  | some od => by_cases he : od.offers.isEmpty <;> simp [he]

theorem waitlistAdd_not_mem (w : List (Nat × List Nat)) (postId uid : Nat)
    (h : uid ∉ (lookupK w postId).getD []) :
    lookupK (waitlistAdd w postId uid) postId =
      some ((lookupK w postId).getD [] ++ [uid]) := by
  unfold waitlistAdd
  simp only []
  rw [if_neg h]
  exact lookupK_setK_self ..

/-- The state of the C5 counterexample: post one is a claimed single
    item owned by user seven; no waitlist exists. -/
def c5State : BotState :=
  { userClaims := [], claimedPosts := [(1, { userId := some 7 })],
    waitlists := [], auctionPosts := [], offerPosts := [],
    multipleClaims := [] }

/-- The post text of the C5 counterexample. -/
def c5Post : PostText :=
  { firstLineMultiple := false, qty := none, price := some 10,
    itemName := "Card" }

/-- Claim C5 as stated is refuted: user seven owns the claimed slot of
    post one, yet claiming it again adds user seven to the waitlist —
    ownership is never checked. -/
theorem c5_counterexample :
    (lookupK c5State.claimedPosts 1).map ClaimedEntry.userId =
      some (some 7) ∧
    (handle_claim c5State 7 "u" "f" 1 c5Post 0).2.1 = .waitlisted ∧
    (handle_claim c5State 7 "u" "f" 1 c5Post 0).1.waitlists = [(1, [7])] := by
  refine ⟨rfl, rfl, rfl⟩

/-- Claim C5 amended: on a claimed single post (claim record with no
    quantity and no counter-offer price), a further claim always
    resolves to Waitlisted, and the requester is appended exactly when
    not already on the waitlist — in particular the current owner is
    appended too, since ownership is never consulted. -/
theorem c5_amended (st : BotState) (uid : Nat) (uname fname : String)
    (postId : Nat) (pt : PostText) (ts : Nat) (cd : ClaimedEntry)
    (hm : pt.firstLineMultiple = false)
    (ha : ∀ ad, lookupK st.auctionPosts postId = some ad → ad.active = false)
    (hcd : lookupK st.claimedPosts postId = some cd)
    (hcop : cd.counterOfferPrice = none) (hq : cd.quantity = none) :
    (handle_claim st uid uname fname postId pt ts).2.1 = .waitlisted ∧
    (handle_claim st uid uname fname postId pt ts).1.waitlists =
      waitlistAdd st.waitlists postId uid ∧
    (uid ∉ (lookupK st.waitlists postId).getD [] →
       lookupK (handle_claim st uid uname fname postId pt ts).1.waitlists
           postId =
         some ((lookupK st.waitlists postId).getD [] ++ [uid])) := by
  have key : ∀ (st1 : BotState) (ns : List Nat),
      st1.claimedPosts = st.claimedPosts → st1.waitlists = st.waitlists →
      (claimCore st1 uid uname fname postId pt ts ns).2.1 = .waitlisted ∧
      (claimCore st1 uid uname fname postId pt ts ns).1.waitlists =
        waitlistAdd st.waitlists postId uid := by
    intro st1 ns h1 h2
    unfold claimCore
    simp [h1, hcd, hcop, hq, h2]
  have hAct : (match lookupK st.auctionPosts postId with
               | some ad => ad.active
               | none => false) = false := by
    cases hA : lookupK st.auctionPosts postId with
    | none => rfl
    | some ad => exact ha ad hA
  have hform : ∀ r : BotState × ClaimOutcome × Effects,
      r.2.1 = .waitlisted → r.1.waitlists = waitlistAdd st.waitlists postId uid →
      (r.2.1 = .waitlisted ∧
       r.1.waitlists = waitlistAdd st.waitlists postId uid ∧
       (uid ∉ (lookupK st.waitlists postId).getD [] →
          lookupK r.1.waitlists postId =
            some ((lookupK st.waitlists postId).getD [] ++ [uid]))) := by
    intro r hr1 hr2
    refine ⟨hr1, hr2, fun hmem => ?_⟩
    rw [hr2]
    exact waitlistAdd_not_mem st.waitlists postId uid hmem
  unfold handle_claim
  rw [if_neg (by simp [hm]), if_neg (by simp [hAct])]
  have h := key (clearOffers st postId).1 (clearOffers st postId).2
    (clearOffers_claimedPosts st postId) (clearOffers_waitlists st postId)
  exact hform _ h.1 h.2

theorem c5_amended_witness :
    (handle_claim c5State 7 "u" "f" 1 c5Post 0).2.1 = .waitlisted ∧
    (handle_claim c5State 7 "u" "f" 1 c5Post 0).1.waitlists =
      waitlistAdd c5State.waitlists 1 7 ∧
    ((7 : Nat) ∉ (lookupK c5State.waitlists 1).getD [] →
       lookupK (handle_claim c5State 7 "u" "f" 1 c5Post 0).1.waitlists 1 =
         some ((lookupK c5State.waitlists 1).getD [] ++ [7])) :=
  c5_amended c5State 7 "u" "f" 1 c5Post 0 { userId := some 7 } rfl
    (fun ad h => by cases h) rfl rfl rfl

theorem claimProceed_offerPosts (st : BotState) (uid : Nat) (un fn : String)
    (postId : Nat) (pt : PostText) (ts : Nat) (price : ℚ) (ic : Bool)
    (ns : List Nat) :
    (claimProceed st uid un fn postId pt ts price ic ns).1.offerPosts =
      st.offerPosts := by
  simp only [claimProceed]
  split
  · split <;> rfl
  · rfl

theorem claimProceed_notified (st : BotState) (uid : Nat) (un fn : String)
    (postId : Nat) (pt : PostText) (ts : Nat) (price : ℚ) (ic : Bool)
    (ns : List Nat) :
    (claimProceed st uid un fn postId pt ts price ic ns).2.2.notified = ns := by
  simp only [claimProceed]

theorem claimCore_offerPosts (st1 : BotState) (uid : Nat) (un fn : String)
    (postId : Nat) (pt : PostText) (ts : Nat) (ns : List Nat) :
    (claimCore st1 uid un fn postId pt ts ns).1.offerPosts =
      st1.offerPosts := by
  unfold claimCore
  split
  · split
    · split
      · split
        · apply claimProceed_offerPosts
        · rfl
      · rfl
    · split
      · split
        · split
          · apply claimProceed_offerPosts
          · rfl
        · rfl
      · rfl
  · split
    · apply claimProceed_offerPosts
    · rfl

theorem claimCore_notified (st1 : BotState) (uid : Nat) (un fn : String)
    (postId : Nat) (pt : PostText) (ts : Nat) (ns : List Nat) :
    (claimCore st1 uid un fn postId pt ts ns).2.2.notified = ns := by
  unfold claimCore
  split
  · split
    · split
      · split
        · apply claimProceed_notified
        · rfl
      · rfl
    · split
      · split
        · split
          · apply claimProceed_notified
          · rfl
        · rfl
      · rfl
  · split
    · apply claimProceed_notified
    · rfl

/-- Claim C10: a claim reply to a non-multi, non-active-auction post
    with pending offers resets the offer book of that post to empty,
    notifies every user who had a pending offer, and then proceeds under
    the ordinary claim rules (claimCore) on the cleared state. -/
theorem c10_claim_resets_offer_book (st : BotState) (uid : Nat)
    (uname fname : String) (postId : Nat) (pt : PostText) (ts : Nat)
    (od : OfferData)
    (hm : pt.firstLineMultiple = false)
    (ha : ∀ ad, lookupK st.auctionPosts postId = some ad → ad.active = false)
    (hod : lookupK st.offerPosts postId = some od)
    (hne : od.offers ≠ []) :
    lookupK (handle_claim st uid uname fname postId pt ts).1.offerPosts
        postId = some { offers := [], counterOffers := [] } ∧
    (handle_claim st uid uname fname postId pt ts).2.2.notified =
      od.offers.map Prod.fst ∧
    handle_claim st uid uname fname postId pt ts =
      claimCore
        { st with offerPosts :=
            (setK st.offerPosts postId { offers := [], counterOffers := [] }) }
        uid uname fname postId pt ts (od.offers.map Prod.fst) := by
  have hAct : (match lookupK st.auctionPosts postId with
               | some ad => ad.active
               | none => false) = false := by
    cases hA : lookupK st.auctionPosts postId with
    | none => rfl
    | some ad => exact ha ad hA
  have hclear : clearOffers st postId =
      ({ st with offerPosts :=
          (setK st.offerPosts postId { offers := [], counterOffers := [] }) },
       od.offers.map Prod.fst) := by
    unfold clearOffers
    simp only [hod]
    rw [if_neg (by simp [List.isEmpty_iff, hne])]
  have hrun : handle_claim st uid uname fname postId pt ts =
      claimCore
        { st with offerPosts :=
            (setK st.offerPosts postId { offers := [], counterOffers := [] }) }
        uid uname fname postId pt ts (od.offers.map Prod.fst) := by
    unfold handle_claim
    rw [if_neg (by simp [hm]), if_neg (by simp [hAct]), hclear]
  refine ⟨?_, ?_, hrun⟩
  · rw [hrun, claimCore_offerPosts]
    exact lookupK_setK_self ..
  · rw [hrun, claimCore_notified]

theorem c10_witness :
    lookupK (handle_claim
        { userClaims := [], claimedPosts := [], waitlists := [],
          auctionPosts := [],
          offerPosts := [(1, { offers := [(3, 5)], counterOffers := [] })],
          multipleClaims := [] }
        7 "u" "f" 1
        { firstLineMultiple := false, qty := none, price := some 10,
          itemName := "Card" } 0).1.offerPosts 1 =
      some { offers := [], counterOffers := [] } ∧
    (handle_claim
        { userClaims := [], claimedPosts := [], waitlists := [],
          auctionPosts := [],
          offerPosts := [(1, { offers := [(3, 5)], counterOffers := [] })],
          multipleClaims := [] }
        7 "u" "f" 1
        { firstLineMultiple := false, qty := none, price := some 10,
          itemName := "Card" } 0).2.2.notified = [3] :=
  by
    have h := c10_claim_resets_offer_book
      { userClaims := [], claimedPosts := [], waitlists := [],
        auctionPosts := [],
        offerPosts := [(1, { offers := [(3, 5)], counterOffers := [] })],
        multipleClaims := [] }
      7 "u" "f" 1
      { firstLineMultiple := false, qty := none, price := some 10,
        itemName := "Card" } 0 { offers := [(3, 5)], counterOffers := [] }
      rfl (fun ad hh => by cases hh) rfl (by simp)
    exact ⟨h.1, h.2.1⟩

/-- The state of the C4 counterexample: a multi post (id one) where
    user seven already offered ten on claim number two. -/
def c4State : BotState :=
  { userClaims := [], claimedPosts := [], waitlists := [], auctionPosts := [],
    offerPosts := [],
    multipleClaims := [(1, { claims := [], waitlist := [],
                             offers := [(2, [(7, 10)])], counterOffers := [],
                             acceptedOffers := [], totalQuantity := 10 })] }

/-- The post text of the C4 counterexample: a multi post priced twelve. -/
def c4Post : PostText :=
  { firstLineMultiple := true, qty := none, price := some 12,
    itemName := "X" }

/-- Claim C4 as stated is refuted: on a multi post, user seven lowers
    their own offer on claim number two from ten to five and the new
    offer is accepted and recorded — only an exactly equal repeat offer
    is rejected. -/
theorem c4_counterexample :
    ((5 : ℚ) < 10) ∧
    (handle_multiple_offer c4State 7 1 c4Post 2 5).2.1 = .recorded ∧
    ((lookupK (handle_multiple_offer c4State 7 1 c4Post 2 5).1.multipleClaims
        1).map (fun md => lookupK md.offers 2)) = some (some [(7, 5)]) := by
  refine ⟨by norm_num, rfl, rfl⟩

/-- Claim C4 amended: on a single (non-multi) post a repeat offer is
    accepted only when strictly above the same user previous offer,
    otherwise rejected with the offer book unchanged; on a multi post a
    repeat offer is rejected only when exactly equal to the user
    previous offer for that claim number — any different amount, lower
    included, is accepted and overwrites it. -/
theorem c4_amended :
    (∀ (st : BotState) (uid postId : Nat) (pt : PostText)
       (amount prev : ℚ) (od : OfferData),
       pt.firstLineMultiple = false →
       offerBlocked st postId = false →
       lookupK st.offerPosts postId = some od →
       lookupK od.offers uid = some prev →
       (amount ≤ prev →
          (handle_offer st uid postId pt amount).2.1 = .notHigherOwn prev ∧
          lookupK (handle_offer st uid postId pt amount).1.offerPosts postId =
            some od) ∧
       (prev < amount →
          (handle_offer st uid postId pt amount).2.1 = .recorded ∧
          lookupK (handle_offer st uid postId pt amount).1.offerPosts postId =
            some { offers := setK od.offers uid amount,
                   counterOffers := delK od.counterOffers uid })) ∧
    (∀ (st : BotState) (uid postId n : Nat) (pt : PostText)
       (amount prev op : ℚ) (md : MultiData) (offersN : List (Nat × ℚ)),
       pt.price = some op →
       1 ≤ n → n ≤ pt.qty.getD 10 →
       amount ≠ op →
       lookupK st.multipleClaims postId = some md →
       lookupK md.claims n = none →
       lookupK md.offers n = some offersN →
       lookupK offersN uid = some prev →
       (amount = prev →
          (handle_multiple_offer st uid postId pt n amount).2.1 =
            .sameOwnOffer prev ∧
          ((lookupK (handle_multiple_offer st uid postId pt n
              amount).1.multipleClaims postId).map
            (fun m => lookupK m.offers n)) = some (some offersN)) ∧
       (amount ≠ prev →
          (handle_multiple_offer st uid postId pt n amount).2.1 = .recorded ∧
          ((lookupK (handle_multiple_offer st uid postId pt n
              amount).1.multipleClaims postId).map
            (fun m => lookupK m.offers n)) =
            some (some (setK offersN uid amount)))) := by
  constructor
  · intro st uid postId pt amount prev od hm hblock hod hprev
    constructor
    · intro hle
      unfold handle_offer
      rw [if_neg (by simp [hm]), if_neg (by simp [hblock])]
      simp only [hod, Option.getD_some, hprev]
      rw [if_pos hle]
      exact ⟨rfl, lookupK_setK_self ..⟩
    · intro hlt
      unfold handle_offer
      rw [if_neg (by simp [hm]), if_neg (by simp [hblock])]
      simp only [hod, Option.getD_some, hprev]
      rw [if_neg (not_le.mpr hlt)]
      unfold offerRecord
      exact ⟨rfl, lookupK_setK_self ..⟩
  · intro st uid postId n pt amount prev op md offersN hp h1n h2n hop hmd
      hclaims hoff hprev
    have hrange : ¬ (n < 1 ∨ pt.qty.getD 10 < n) := by omega
    constructor
    · intro heq
      unfold handle_multiple_offer
      simp only [hp]
      rw [if_neg hrange, if_neg hop]
      simp only [hmd, Option.getD_some, hoff, hclaims, Option.isSome_none,
        Bool.false_eq_true, if_false, hprev]
      rw [if_pos heq]
      refine ⟨rfl, ?_⟩
      rw [lookupK_setK_self]
      simp [lookupK_setK_self]
    · intro hne
      unfold handle_multiple_offer
      simp only [hp]
      rw [if_neg hrange, if_neg hop]
      simp only [hmd, Option.getD_some, hoff, hclaims, Option.isSome_none,
        Bool.false_eq_true, if_false, hprev]
      rw [if_neg hne]
      unfold multiOfferRecord
      refine ⟨rfl, ?_⟩
      rw [lookupK_setK_self]
      simp [lookupK_setK_self]

theorem c4_amended_witness :
    (handle_offer
        { userClaims := [], claimedPosts := [], waitlists := [],
          auctionPosts := [],
          offerPosts := [(1, { offers := [(7, 10)], counterOffers := [] })],
          multipleClaims := [] }
        7 1
        { firstLineMultiple := false, qty := none, price := some 10,
          itemName := "Card" } 8).2.1 = .notHigherOwn 10 ∧
    (handle_multiple_offer c4State 7 1 c4Post 2 5).2.1 = .recorded := by
  constructor
  · exact ((c4_amended.1
      { userClaims := [], claimedPosts := [], waitlists := [],
        auctionPosts := [],
        offerPosts := [(1, { offers := [(7, 10)], counterOffers := [] })],
        multipleClaims := [] }
      7 1
      { firstLineMultiple := false, qty := none, price := some 10,
        itemName := "Card" } 8 10
      { offers := [(7, 10)], counterOffers := [] }
      rfl rfl rfl rfl).1 (by norm_num)).1
  · exact ((c4_amended.2 c4State 7 1 2 c4Post 5 10 12
      { claims := [], waitlist := [], offers := [(2, [(7, 10)])],
        counterOffers := [], acceptedOffers := [], totalQuantity := 10 }
      [(7, 10)] rfl (by norm_num) (by norm_num [c4Post]) (by norm_num)
      rfl rfl rfl rfl).2 (by norm_num)).1

theorem addItem_mem (l : List (Nat × UserAccount)) (uid : Nat)
    (un fn : String) (it : ClaimItem) :
    ∃ a, lookupK (addItem l uid un fn it) uid = some a ∧ it ∈ a.items := by
  unfold addItem
  cases h : lookupK l uid with
  | none =>
    refine ⟨_, lookupK_setK_self .., ?_⟩
    simp
  | some a =>
    refine ⟨_, lookupK_setK_self .., ?_⟩
    simp

/-- Claim C3: a successful unclaim of a claimed slot.  With a non-empty
    waitlist the head is popped and becomes the new owner at the same
    price (the item text and price are appended to that account) and the
    sold count is unchanged; with an empty waitlist the sold count drops
    by exactly one and the slot reverts to open (quantity incremented)
    or, for a true single item, the claim record is deleted.  Both the
    single-post and the multi-post handlers are covered. -/
theorem c3_unclaim (st : BotState) (uid : Nat) (item : ClaimItem) (ts : Nat)
    (nU nF : String) (postId : Nat) :
    (∀ next rest,
       (lookupK st.waitlists item.messageId).getD [] = next :: rest →
       (handle_regular_unclaim st uid item ts nU nF).2.1.soldDelta = 0 ∧
       (handle_regular_unclaim st uid item ts nU nF).2.2 = some next ∧
       (∀ cd, lookupK st.claimedPosts item.messageId = some cd →
          lookupK (handle_regular_unclaim st uid item ts nU nF).1.claimedPosts
              item.messageId = some { cd with userId := some next }) ∧
       (∃ acc, lookupK
            (handle_regular_unclaim st uid item ts nU nF).1.userClaims next =
            some acc ∧
          { text := item.text, price := item.price,
            messageId := item.messageId, timestamp := ts,
            quantity := 1 : ClaimItem } ∈ acc.items)) ∧
    ((lookupK st.waitlists item.messageId).getD [] = [] →
       (handle_regular_unclaim st uid item ts nU nF).2.1.soldDelta = -1 ∧
       (∀ cd q, lookupK st.claimedPosts item.messageId = some cd →
          cd.quantity = some q →
          lookupK (handle_regular_unclaim st uid item ts nU nF).1.claimedPosts
              item.messageId = some { cd with quantity := some (q + 1) }) ∧
       (∀ cd, lookupK st.claimedPosts item.messageId = some cd →
          cd.quantity = none →
          (handle_regular_unclaim st uid item ts nU nF).1.claimedPosts =
            delK st.claimedPosts item.messageId)) ∧
    (∀ md n next rest, item.claimNumber = some n →
       lookupK st.multipleClaims postId = some md →
       lookupK md.claims n = some uid →
       (lookupK md.waitlist n).getD [] = next :: rest →
       (handle_multiple_unclaim st uid item postId ts nU nF).2.1.soldDelta =
         0 ∧
       (handle_multiple_unclaim st uid item postId ts nU nF).2.2 =
         some next ∧
       ((lookupK (handle_multiple_unclaim st uid item postId ts
            nU nF).1.multipleClaims postId).map
          (fun m => lookupK m.claims n)) = some (some next) ∧
       (∃ acc, lookupK (handle_multiple_unclaim st uid item postId ts
            nU nF).1.userClaims next = some acc ∧
          { text := item.text, price := item.price, messageId := postId,
            timestamp := ts, quantity := 1, claimNumber := some n,
            isMultipleClaim := true : ClaimItem } ∈ acc.items)) ∧
    (∀ md n, item.claimNumber = some n →
       lookupK st.multipleClaims postId = some md →
       lookupK md.claims n = some uid →
       (lookupK md.waitlist n).getD [] = [] →
       (handle_multiple_unclaim st uid item postId ts nU nF).2.1.soldDelta =
         -1 ∧
       lookupK (handle_multiple_unclaim st uid item postId ts
           nU nF).1.multipleClaims postId =
         some { md with claims := delK md.claims n }) := by
  refine ⟨?_, ?_, ?_, ?_⟩
  · intro next rest hwl
    unfold handle_regular_unclaim
    simp only [hwl]
    refine ⟨by trivial, by trivial, ?_, ?_⟩
    · intro cd hcd
      simp only [hcd]
      exact lookupK_setK_self ..
    · cases hcd : lookupK st.claimedPosts item.messageId with
      | none =>
        simp only [hcd]
        exact addItem_mem ..
      | some cd =>
        simp only [hcd]
        exact addItem_mem ..
  · intro hwl
    unfold handle_regular_unclaim
    simp only [hwl]
    refine ⟨by trivial, ?_, ?_⟩
    · intro cd q hcd hq
      simp only [hcd, hq]
      exact lookupK_setK_self ..
    · intro cd hcd hq
      simp only [hcd, hq]
  · intro md n next rest hn hmd hcl hwl
    unfold handle_multiple_unclaim
    simp only [hn, Option.getD_some, hmd]
    rw [if_pos hcl]
    simp only [hwl]
    refine ⟨by trivial, by trivial, ?_, ?_⟩
    · rw [lookupK_setK_self]
      simp [lookupK_setK_self]
    · exact addItem_mem ..
  · intro md n hn hmd hcl hwl
    unfold handle_multiple_unclaim
    simp only [hn, Option.getD_some, hmd]
    rw [if_pos hcl]
    simp only [hwl]
    exact ⟨by trivial, lookupK_setK_self ..⟩

theorem c3_unclaim_witness :
    (handle_regular_unclaim
        { userClaims :=
            [(7, { items := [{ text := "Card", price := 10, messageId := 1 }],
                   total := 10, username := "u", fullName := "f",
                   paymentStatus := "unpaid" })],
          claimedPosts := [(1, { userId := some 7 })],
          waitlists := [(1, [8])], auctionPosts := [], offerPosts := [],
          multipleClaims := [] }
        7 { text := "Card", price := 10, messageId := 1 } 0
        "w" "x").2.1.soldDelta = 0 ∧
    (handle_regular_unclaim
        { userClaims :=
            [(7, { items := [{ text := "Card", price := 10, messageId := 1 }],
                   total := 10, username := "u", fullName := "f",
                   paymentStatus := "unpaid" })],
          claimedPosts := [(1, { userId := some 7 })],
          waitlists := [(1, [8])], auctionPosts := [], offerPosts := [],
          multipleClaims := [] }
        7 { text := "Card", price := 10, messageId := 1 } 0
        "w" "x").2.2 = some 8 := by
  have h := (c3_unclaim
    { userClaims :=
        [(7, { items := [{ text := "Card", price := 10, messageId := 1 }],
               total := 10, username := "u", fullName := "f",
               paymentStatus := "unpaid" })],
      claimedPosts := [(1, { userId := some 7 })],
      waitlists := [(1, [8])], auctionPosts := [], offerPosts := [],
      multipleClaims := [] }
    7 { text := "Card", price := 10, messageId := 1 } 0 "w" "x" 1).1
    8 [] rfl
  exact ⟨h.1, h.2.1⟩

theorem claimProceed_userClaims (st : BotState) (uid : Nat) (un fn : String)
    (postId : Nat) (pt : PostText) (ts : Nat) (price : ℚ) (ic : Bool)
    (ns : List Nat) :
    (claimProceed st uid un fn postId pt ts price ic ns).1.userClaims =
      addItem st.userClaims uid un fn
        { text := pt.itemName, price := price, messageId := postId,
          timestamp := ts, quantity := 1, isCounterOffer := ic } := by
  simp only [claimProceed]
  split
  · split <;> rfl
  · rfl

theorem claimCore_invariant (st1 : BotState) (uid : Nat) (un fn : String)
    (postId : Nat) (pt : PostText) (ts : Nat) (ns : List Nat)
    (hinv : invariantAll st1.userClaims) :
    invariantAll (claimCore st1 uid un fn postId pt ts ns).1.userClaims := by
  unfold claimCore
  split
  · split
    · split
      · split
        · rw [claimProceed_userClaims]
          exact invariantAll_addItem _ _ _ _ hinv
        · exact hinv
      · exact hinv
    · split
      · split
        · split
          · rw [claimProceed_userClaims]
            exact invariantAll_addItem _ _ _ _ hinv
          · exact hinv
        · exact hinv
      · exact hinv
  · split
    · rw [claimProceed_userClaims]
      exact invariantAll_addItem _ _ _ _ hinv
    · exact hinv

theorem handle_claim_invariant (st : BotState) (uid : Nat) (un fn : String)
    (postId : Nat) (pt : PostText) (ts : Nat)
    (hinv : invariantAll st.userClaims) :
    invariantAll (handle_claim st uid un fn postId pt ts).1.userClaims := by
  unfold handle_claim
  split
  · exact hinv
  · split
    · exact hinv
    · apply claimCore_invariant
      rw [clearOffers_userClaims]
      exact hinv

theorem handle_multiple_claim_invariant (st : BotState) (uid : Nat)
    (un fn : String) (postId : Nat) (pt : PostText) (n : Nat) (ts : Nat)
    (hinv : invariantAll st.userClaims) :
    invariantAll
      (handle_multiple_claim st uid un fn postId pt n ts).1.userClaims := by
  unfold handle_multiple_claim
  dsimp only
  split
  · exact hinv
  · split
    · exact hinv
    · split
      · split
        · exact hinv
        · exact hinv
      · exact invariantAll_addItem _ _ _ _ hinv

theorem handle_regular_unclaim_invariant (st : BotState) (uid : Nat)
    (item : ClaimItem) (ts : Nat) (nU nF : String)
    (hinv : invariantAll st.userClaims)
    (hmem : ∀ a, lookupK st.userClaims uid = some a → item ∈ a.items) :
    invariantAll
      (handle_regular_unclaim st uid item ts nU nF).1.userClaims := by
  have h1 : invariantAll (removeItem st.userClaims uid item) :=
    invariantAll_removeItem uid item hinv hmem
  unfold handle_regular_unclaim
  dsimp only
  split
  · split
    · exact invariantAll_addItem _ _ _ _ h1
    · exact invariantAll_addItem _ _ _ _ h1
  · split
    · split
      · exact h1
      · exact h1
    · exact h1

theorem handle_multiple_unclaim_invariant (st : BotState) (uid : Nat)
    (item : ClaimItem) (postId : Nat) (ts : Nat) (nU nF : String)
    (hinv : invariantAll st.userClaims)
    (hmem : ∀ a, lookupK st.userClaims uid = some a → item ∈ a.items) :
    invariantAll
      (handle_multiple_unclaim st uid item postId ts nU nF).1.userClaims := by
  have h1 : invariantAll (removeItem st.userClaims uid item) :=
    invariantAll_removeItem uid item hinv hmem
  unfold handle_multiple_unclaim
  dsimp only
  split
  · exact h1
  · split
    · split
      · exact invariantAll_addItem _ _ _ _ h1
      · exact h1
    · exact h1

theorem handle_take_invariant (st : BotState) (uid : Nat) (un fn : String)
    (itemName : String) (origQty : Nat) (ts : Nat)
    (hinv : invariantAll st.userClaims) :
    invariantAll
      (handle_take st uid un fn itemName origQty ts).1.userClaims := by
  unfold handle_take
  dsimp only
  split
  · exact hinv
  · split
    · split
      · split
        · exact invariantAll_addItem _ _ _ _ hinv
        · exact invariantAll_addItem _ _ _ _ hinv
      · exact invariantAll_addItem _ _ _ _ hinv
    · exact invariantAll_addItem _ _ _ _ hinv

theorem handle_multiple_take_invariant (st : BotState) (uid : Nat)
    (un fn : String) (postId : Nat) (n : Nat) (amt : ℚ) (itemName : String)
    (ts : Nat) (hinv : invariantAll st.userClaims) :
    invariantAll
      (handle_multiple_take st uid un fn postId n amt itemName
        ts).1.userClaims := by
  unfold handle_multiple_take
  dsimp only
  split
  · exact hinv
  · exact invariantAll_addItem _ _ _ _ hinv

theorem handle_auction_confirmation_invariant
    (auctions : List (Nat × AuctionData))
    (accounts : List (Nat × UserAccount)) (postId : Nat) (cmd : ConfirmCmd)
    (cardName uname fname : String) (ts : Nat)
    (hinv : invariantAll accounts) :
    invariantAll
      (handle_auction_confirmation auctions accounts postId cmd cardName
        uname fname ts).2.1 := by
  unfold handle_auction_confirmation
  split
  · exact hinv
  · split
    · exact hinv
    · split
      · exact hinv
      · split
        · split
          · exact hinv
          · exact invariantAll_addItem _ _ _ _ hinv
        · split
          · exact hinv
          · exact hinv

theorem resetAccount_invariant (a : UserAccount) :
    accountInvariant (resetAccount a) := by
  simp [accountInvariant, resetAccount, itemsTotal]

theorem reset_specific_user_invariant (st : BotState) (target : Nat)
    (hinv : invariantAll st.userClaims) :
    invariantAll (reset_specific_user st target).userClaims := by
  unfold reset_specific_user
  split
  · exact hinv
  · exact invariantAll_setK hinv (resetAccount_invariant _)

theorem reset_all_claims_invariant (st : BotState)
    (hinv : invariantAll st.userClaims) :
    invariantAll (reset_all_claims_confirmed st).state.userClaims := by
  have hmap : invariantAll (st.userClaims.map
      (fun p => if p.2.items.isEmpty then p else (p.1, resetAccount p.2))) := by
    intro p hp
    simp only [List.mem_map] at hp
    obtain ⟨q, hq, hpq⟩ := hp
    by_cases h : q.2.items.isEmpty
    · rw [← hpq]
      simp only [h, if_true]
      exact hinv q hq
    · rw [← hpq]
      simp only [h, if_false]
      exact resetAccount_invariant _
  unfold reset_all_claims_confirmed
  split
  · exact hmap
  · exact hmap

/-- A binary64-representable value: an integer mantissa of magnitude
    below 2^53 times an integer power of two.  This models the Python
    float type in which the source stores every price and total.  The
    exponent is unbounded: all values below are far from the overflow
    and subnormal ranges of IEEE-754, where the bounded format and this
    model agree. -/
def repr53 (v : ℚ) : Prop := ∃ m : ℤ, ∃ e : ℤ, |m| < 2 ^ 53 ∧ v = m * 2 ^ e

/-- v is a binary64 round-to-nearest result for q — the semantics of
    each float addition and subtraction the source performs on totals:
    v is representable and at least as close to q as every representable
    value.  The tie-to-even rule is not needed here: every rounding step
    used below is strictly nearer to one neighbour. -/
def rounds53 (q v : ℚ) : Prop :=
  repr53 v ∧ ∀ w, repr53 w → |q - v| ≤ |q - w|

theorem repr53_div_pow (N : ℤ) (k : ℕ) (h : |N| < 2 ^ 53) :
    repr53 ((N : ℚ) / 2 ^ k) :=
  ⟨N, -(k : ℤ), h, by rw [zpow_neg, zpow_natCast, div_eq_mul_inv]⟩

theorem rounds53_self (q : ℚ) (hq : repr53 q) : rounds53 q q :=
  ⟨hq, fun w _ => by simp⟩

theorem rounds53_exact (q v : ℚ) (hq : repr53 q) (hv : rounds53 q v) :
    v = q := by
  have h := hv.2 q hq
  simp only [sub_self, abs_zero] at h
  have h0 : |q - v| = 0 := le_antisymm h (abs_nonneg _)
  exact (sub_eq_zero.mp (abs_eq_zero.mp h0)).symm

/-- Every representable value other than N / 2^k lies strictly farther
    from q than N / 2^k does, when q * 2^k sits strictly between N and
    N + 1/2 and N is a normal 53-bit mantissa.  Values on a coarser or
    equal grid differ from q * 2^k by more than the fractional part;
    values on a finer grid are too small in magnitude to come near q. -/
theorem repr53_far (q w : ℚ) (k : ℕ) (N : ℤ)
    (hN1 : (2 : ℤ) ^ 52 ≤ N) (hN2 : N < 2 ^ 53)
    (hq1 : (N : ℚ) < q * 2 ^ k) (hq2 : q * 2 ^ k < (N : ℚ) + 1 / 2)
    (hw : repr53 w) (hne : w ≠ (N : ℚ) / 2 ^ k) :
    q - (N : ℚ) / 2 ^ k < |q - w| := by
  obtain ⟨m, e, hm, rfl⟩ := hw
  have h2k : (0 : ℚ) < 2 ^ k := by positivity
  by_cases he : -(k : ℤ) ≤ e
  · obtain ⟨j, hj⟩ : ∃ j : ℕ, (j : ℤ) = e + k :=
      ⟨(e + k).toNat, Int.toNat_of_nonneg (by omega)⟩
    have hwk : (m : ℚ) * 2 ^ e * 2 ^ k = ((m * 2 ^ j : ℤ) : ℚ) := by
      push_cast
      rw [mul_assoc, ← zpow_natCast (2 : ℚ) k,
          ← zpow_add₀ (by norm_num : (2 : ℚ) ≠ 0),
          ← zpow_natCast (2 : ℚ) j, hj]
    have hMN : (m * 2 ^ j : ℤ) ≠ N := by
      intro hMeq
      apply hne
      rw [eq_div_iff (ne_of_gt h2k), hwk, hMeq]
    have hkey : q * 2 ^ k - N < |q * 2 ^ k - (m * 2 ^ j : ℤ)| := by
      rcases lt_or_gt_of_ne hMN with h | h
      · have hc : ((m * 2 ^ j : ℤ) : ℚ) ≤ (N : ℚ) - 1 := by
          have : (m * 2 ^ j : ℤ) ≤ N - 1 := Int.le_sub_one_of_lt h
          exact_mod_cast this
        rw [lt_abs]
        left
        linarith
      · have hc : (N : ℚ) + 1 ≤ ((m * 2 ^ j : ℤ) : ℚ) := by
          have : N + 1 ≤ (m * 2 ^ j : ℤ) := Int.add_one_le_iff.mpr h
          exact_mod_cast this
        rw [lt_abs]
        right
        linarith
    have habs : |q - (m : ℚ) * 2 ^ e| * 2 ^ k =
        |q * 2 ^ k - ((m * 2 ^ j : ℤ) : ℚ)| := by
      have h1 : |(q - (m : ℚ) * 2 ^ e) * 2 ^ k| =
          |q - (m : ℚ) * 2 ^ e| * 2 ^ k := by
        rw [abs_mul, abs_of_pos h2k]
      rw [← h1, sub_mul, hwk]
    have hgoal : (q - (N : ℚ) / 2 ^ k) * 2 ^ k = q * 2 ^ k - N := by
      field_simp
    rw [← mul_lt_mul_right h2k, hgoal, habs]
    exact hkey
  · push_neg at he
    have he1 : e ≤ -(k : ℤ) - 1 := by omega
    have hmq : |(m : ℚ)| < 2 ^ 53 := by exact_mod_cast hm
    have hzp : (0 : ℚ) < (2 : ℚ) ^ e := zpow_pos (by norm_num) e
    have hwle : |(m : ℚ) * 2 ^ e| < 2 ^ 53 * 2 ^ (-(k : ℤ) - 1) := by
      rw [abs_mul, abs_of_pos hzp]
      have h1 : (2 : ℚ) ^ e ≤ 2 ^ (-(k : ℤ) - 1) :=
        zpow_le_zpow_right₀ (by norm_num : (1 : ℚ) ≤ 2) he1
      calc |(m : ℚ)| * 2 ^ e
          ≤ |(m : ℚ)| * 2 ^ (-(k : ℤ) - 1) :=
            mul_le_mul_of_nonneg_left h1 (abs_nonneg _)
        _ < 2 ^ 53 * 2 ^ (-(k : ℤ) - 1) :=
            mul_lt_mul_of_pos_right hmq (zpow_pos (by norm_num) _)
    have hpow : (2 : ℚ) ^ (53 : ℕ) * 2 ^ (-(k : ℤ) - 1) =
        2 ^ (52 : ℕ) / 2 ^ k := by
      rw [div_eq_mul_inv, ← zpow_natCast (2 : ℚ) k, ← zpow_neg,
          ← zpow_natCast (2 : ℚ) 53, ← zpow_natCast (2 : ℚ) 52,
          ← zpow_add₀ (by norm_num : (2 : ℚ) ≠ 0),
          ← zpow_add₀ (by norm_num : (2 : ℚ) ≠ 0)]
      congr 1
      omega
    rw [hpow] at hwle
    have hVle : (2 : ℚ) ^ (52 : ℕ) / 2 ^ k ≤ (N : ℚ) / 2 ^ k := by
      gcongr
      exact_mod_cast hN1
    have hwlt : |(m : ℚ) * 2 ^ e| < (N : ℚ) / 2 ^ k :=
      lt_of_lt_of_le hwle hVle
    have h1 : (m : ℚ) * 2 ^ e ≤ |(m : ℚ) * 2 ^ e| := le_abs_self _
    have h2 : q - (m : ℚ) * 2 ^ e ≤ |q - (m : ℚ) * 2 ^ e| := le_abs_self _
    linarith

/-- Characterisation of round-to-nearest when q * 2^k lies strictly
    between a normal mantissa N and N + 1/2: the rounding result is
    exactly N / 2^k. -/
theorem rounds53_down (q : ℚ) (k : ℕ) (N : ℤ)
    (hN1 : (2 : ℤ) ^ 52 ≤ N) (hN2 : N < 2 ^ 53)
    (hq1 : (N : ℚ) < q * 2 ^ k) (hq2 : q * 2 ^ k < (N : ℚ) + 1 / 2)
    (v : ℚ) : rounds53 q v ↔ v = (N : ℚ) / 2 ^ k := by
  have h2k : (0 : ℚ) < 2 ^ k := by positivity
  have hNrepr : repr53 ((N : ℚ) / 2 ^ k) := by
    apply repr53_div_pow
    have h0 : (0 : ℤ) ≤ N := le_trans (by norm_num) hN1
    rw [abs_of_nonneg h0]
    exact hN2
  have hpos : 0 < q - (N : ℚ) / 2 ^ k := by
    have : (N : ℚ) / 2 ^ k < q := (div_lt_iff₀ h2k).mpr hq1
    linarith
  constructor
  · intro hv
    by_contra hne
    have h1 := hv.2 _ hNrepr
    have h2 := repr53_far q v k N hN1 hN2 hq1 hq2 hv.1 hne
    rw [abs_of_pos hpos] at h1
    linarith
  · intro hv
    subst hv
    refine ⟨hNrepr, fun w hw => ?_⟩
    by_cases hwe : w = (N : ℚ) / 2 ^ k
    · rw [hwe]
    · have hfar := repr53_far q w k N hN1 hN2 hq1 hq2 hw hwe
      rw [abs_of_pos hpos]
      linarith

/-- Claim C9 is refuted by the float semantics of the source: prices and
    totals are Python binary64 floats, and total is maintained by float
    addition and subtraction of the item price (handle_claim and
    handle_regular_unclaim).  At the failing input — claim an item
    priced 3.96, claim an item priced 63.97, then unclaim the 3.96
    item — any execution whose float operations round to nearest leaves
    a total different from the sum of the remaining item prices
    (itemsTotal).  The exact-arithmetic lemmas above show every handler
    adds or removes exactly the item price, so the invariant is the
    intent and the binary64 accumulation is where it fails. -/
theorem c9_float_counterexample (va vb t1 t2 t3 : ℚ)
    (ha : rounds53 (396 / 100) va)
    (hb : rounds53 (6397 / 100) vb)
    (h1 : rounds53 (0 + va) t1)
    (h2 : rounds53 (t1 + vb) t2)
    (h3 : rounds53 (t2 - va) t3) :
    t3 ≠ itemsTotal [{ text := "Item", price := vb, messageId := 2 }] := by
  have hva : va = (8917127262193582 : ℚ) / 2 ^ 51 :=
    (rounds53_down (396 / 100) 51 8917127262193582 (by norm_num)
      (by norm_num) (by norm_num) (by norm_num) va).mp ha
  have hvb : vb = (9002977130090332 : ℚ) / 2 ^ 47 :=
    (rounds53_down (6397 / 100) 47 9002977130090332 (by norm_num)
      (by norm_num) (by norm_num) (by norm_num) vb).mp hb
  have hrep : repr53 (0 + va) := by
    rw [zero_add, hva]
    exact repr53_div_pow 8917127262193582 51 (by norm_num)
  have ht1 : t1 = va := by
    have h := rounds53_exact (0 + va) t1 hrep h1
    rw [zero_add] at h
    exact h
  have ht2 : t2 = (4780148791988715 : ℚ) / 2 ^ 46 := by
    rw [ht1, hva, hvb] at h2
    exact (rounds53_down _ 46 4780148791988715 (by norm_num) (by norm_num)
      (by norm_num) (by norm_num) t2).mp h2
  have ht3 : t3 = (9002977130090331 : ℚ) / 2 ^ 47 := by
    rw [ht2, hva] at h3
    exact (rounds53_down _ 47 9002977130090331 (by norm_num) (by norm_num)
      (by norm_num) (by norm_num) t3).mp h3
  rw [ht3, hvb]
  simp only [itemsTotal, List.map_cons, List.map_nil, List.sum_cons,
    List.sum_nil]
  norm_num

theorem c9_float_counterexample_witness :
    (9002977130090331 : ℚ) / 2 ^ 47 ≠
      itemsTotal [{ text := "Item",
                    price := (9002977130090332 : ℚ) / 2 ^ 47,
                    messageId := 2 }] :=
  c9_float_counterexample
    ((8917127262193582 : ℚ) / 2 ^ 51) ((9002977130090332 : ℚ) / 2 ^ 47)
    ((8917127262193582 : ℚ) / 2 ^ 51) ((4780148791988715 : ℚ) / 2 ^ 46)
    ((9002977130090331 : ℚ) / 2 ^ 47)
    ((rounds53_down (396 / 100) 51 8917127262193582 (by norm_num)
      (by norm_num) (by norm_num) (by norm_num) _).mpr (by norm_num))
    ((rounds53_down (6397 / 100) 47 9002977130090332 (by norm_num)
      (by norm_num) (by norm_num) (by norm_num) _).mpr (by norm_num))
    (by
      rw [zero_add]
      exact rounds53_self _ (repr53_div_pow 8917127262193582 51 (by norm_num)))
    ((rounds53_down _ 46 4780148791988715 (by norm_num) (by norm_num)
      (by norm_num) (by norm_num) _).mpr (by norm_num))
    ((rounds53_down _ 47 9002977130090331 (by norm_num) (by norm_num)
      (by norm_num) (by norm_num) _).mpr (by norm_num))

end PokaiShop
